import Mathlib

/-!
Verification development for the SnapNote journaling backend.

This file gives a shallow embedding, in Lean 4, of the core logic of the
backend: the journal-entry ledger (`models/JournalEntry.js`,
`controllers/journalController.js`, `controllers/userController.js`,
`routes/journal.js`, `utils/helpers.js`), the credential/lockout logic
(`models/User.js`), and the token lifecycle
(`controllers/authController.js`).  Instants are modelled as integer
milliseconds since the Unix epoch; the document store is modelled as a
list of records together with the unique compound index the schema
declares on `(userId, dateString)`.  Each definition is translated from
the corresponding JavaScript source; theorems at the end of the file
settle the specification claims against these definitions.
-/

namespace SnapNote

/-- A user identifier (Mongo ObjectId, abstracted). -/
abbrev UserId := Nat

/-- An instant: integer milliseconds since the Unix epoch (JS `Date.getTime()`). -/
abbrev Millis := Int

/-- Milliseconds per calendar day. -/
def msPerDay : Int := 86400000

/-- The UTC calendar-day number of an instant (days since 1970-01-01, floored,
which is how `Date.prototype.toISOString` buckets instants into dates). -/
def utcDay (ms : Millis) : Int := Int.fdiv ms msPerDay

/-- Civil (proleptic Gregorian) date from a day number, UTC.  This is the
standard days-to-civil conversion used by `toISOString`'s date part; it
returns `(year, month, day)`. -/
def civilFromDays (z0 : Int) : Int × Nat × Nat :=
  let z : Int := z0 + 719468
  let era : Int := Int.fdiv z 146097
  let doe : Nat := (z - era * 146097).toNat
  let yoe : Nat := (doe - doe / 1460 + doe / 36524 - doe / 146096) / 365
  let y : Int := (yoe : Int) + era * 400
  let doy : Nat := doe - (365 * yoe + yoe / 4 - yoe / 100)
  let mp : Nat := (5 * doy + 2) / 153
  let d : Nat := doy - (153 * mp + 2) / 5 + 1
  let m : Nat := if mp < 10 then mp + 3 else mp - 9
  (if m ≤ 2 then y + 1 else y, m, d)

/-- Zero-pad a (month or day) number to two digits. -/
def pad2 (n : Nat) : String := if n < 10 then "0" ++ toString n else toString n

/-- Zero-pad a year to four digits, as `toISOString` renders years 0–9999. -/
def pad4 (y : Int) : String :=
  if y < 0 then "-" ++ toString (-y)
  else if y < 10 then "000" ++ toString y
  else if y < 100 then "00" ++ toString y
  else if y < 1000 then "0" ++ toString y
  else toString y

/-- Render a UTC day number as a `YYYY-MM-DD` string. -/
def renderDay (day : Int) : String :=
  let c := civilFromDays day
  pad4 c.1 ++ "-" ++ pad2 c.2.1 ++ "-" ++ pad2 c.2.2

/-- `helpers.js` `formatDateString(date)`:
`date.toISOString().split('T')[0]`, i.e. the `YYYY-MM-DD` rendering of the
instant's UTC calendar day.  The output depends on the instant only. -/
def formatDateString (ms : Millis) : String := renderDay (utcDay ms)

/-- JavaScript `String.prototype.trim` on a character list: drop leading
and trailing whitespace. -/
def trimChars (l : List Char) : List Char :=
  ((l.dropWhile Char.isWhitespace).reverse.dropWhile Char.isWhitespace).reverse

/-- JavaScript `String.prototype.trim`. -/
def jsTrim (s : String) : String := String.mk (trimChars s.toList)

/-- `helpers.js` `sanitizeInput(input)`: trim, strip the characters `<` and
`>`, and truncate to 2000 characters. -/
def sanitizeInput (s : String) : String :=
  String.mk ((((jsTrim s).toList.filter (fun c => c ≠ '<' && c ≠ '>'))).take 2000)

/-- Auxiliary word counter: walks the character list left to right; `inWord`
records whether the previous character belonged to a word, so that a word is
counted exactly once, at its first character.  This is the token count that
JavaScript's `trimmed.split(/\s+/).length` produces on a trimmed string:
maximal runs of non-whitespace characters. -/
def countWordsAux : List Char → Bool → Nat
  | [], _ => 0
  | c :: cs, inWord =>
    if c.isWhitespace then countWordsAux cs false
    else (if inWord then 0 else 1) + countWordsAux cs true

/-- Number of maximal non-whitespace runs in a character list. -/
def countWords (l : List Char) : Nat := countWordsAux l false

/-- `JournalEntry.js` pre-save word count:
`this.content.trim() ? this.content.trim().split(/\s+/).length : 0` —
zero when the trimmed content is empty, else the token count of the
trimmed content. -/
def jsWordCount (content : String) : Nat :=
  match trimChars content.toList with
  | [] => 0
  | l => countWords l

/-- The five-value mood enumeration of the `JournalEntry` schema. -/
def moodEnum : List String := ["very-happy", "happy", "neutral", "sad", "very-sad"]

/-- A persisted journal entry (`models/JournalEntry.js`), with the
`metadata.timezone` field inlined.  `dateString` is the `YYYY-MM-DD`
calendar-day key used by the unique compound index. -/
structure Entry where
  id : Nat
  userId : UserId
  content : String
  wordCount : Nat
  characterCount : Nat
  writingDuration : Rat
  entryDate : Millis
  dateString : String
  mood : String
  tags : List String
  timezone : String
  deriving DecidableEq, Repr

/-- The journal-entry collection, modelled as the list of persisted documents
(most recently inserted first). -/
abbrev Store := List Entry

/-- The `JournalEntry` pre-save middleware: when `content` was modified,
recompute `characterCount` and `wordCount` from it; when `entryDate` was
modified or the document is new, recompute `dateString` from `entryDate`
via `toISOString().split('T')[0]`. -/
def preSave (e : Entry) (contentModified : Bool) (dateTouched : Bool) : Entry :=
  let e1 :=
    if contentModified then
      { e with characterCount := e.content.length, wordCount := jsWordCount e.content }
    else e
  if dateTouched then { e1 with dateString := formatDateString e1.entryDate } else e1

/-- Errors of the Mongo layer that the controllers observe: the unique
compound index on `(userId, dateString)` rejects a duplicate insert with a
duplicate-key error (code 11000). -/
inductive DbError where
  | duplicateKey
  deriving DecidableEq, Repr

/-- Insertion into the entry collection as the persistence layer performs it:
the unique compound index `{ userId: 1, dateString: 1 }` atomically rejects
a document whose `(userId, dateString)` pair is already present. -/
def mongoInsert (store : Store) (e : Entry) : Except DbError Store :=
  if store.any (fun u => u.userId == e.userId && u.dateString == e.dateString) then
    Except.error DbError.duplicateKey
  else
    Except.ok (e :: store)

/-- Decidable equality of controller outcomes, so that concrete runs can
be checked by evaluation. -/
instance {α β : Type} [DecidableEq α] [DecidableEq β] : DecidableEq (Except α β) :=
  fun a b =>
    match a, b with
    | Except.ok x, Except.ok y =>
      if h : x = y then Decidable.isTrue (by rw [h]) else Decidable.isFalse (by simp [h])
    | Except.error x, Except.error y =>
      if h : x = y then Decidable.isTrue (by rw [h]) else Decidable.isFalse (by simp [h])
    | Except.ok _, Except.error _ => Decidable.isFalse (by simp)
    | Except.error _, Except.ok _ => Decidable.isFalse (by simp)

/-- The request body accepted by `POST /journal/entries`. -/
structure EntryInput where
  content : String
  writingDuration : Rat
  mood : Option String
  tags : Option (List String)
  deriving DecidableEq, Repr

/-- `routes/journal.js` `createEntryValidation`, as express-validator runs it:
content trimmed then length in [1, 2000]; `writingDuration` numeric in
[1, 60] (`isFloat({ min: 1, max: 60 })`); `mood`, when present, in the
five-value enumeration; `tags`, when present, an array whose members trim to
length in [1, 50]. -/
def createEntryValidation (r : EntryInput) : Bool :=
  (decide (1 ≤ (jsTrim r.content).length) && decide ((jsTrim r.content).length ≤ 2000)) &&
  (decide (1 ≤ r.writingDuration) && decide (r.writingDuration ≤ 60)) &&
  (match r.mood with
   | none => true
   | some m => decide (m ∈ moodEnum)) &&
  (match r.tags with
   | none => true
   | some ts => ts.all (fun t => decide (1 ≤ (jsTrim t).length) && decide ((jsTrim t).length ≤ 50)))

/-- The error outcomes of the journal controllers, per the spec's taxonomy:
a 400 with itemized reasons or a missing/invalid field is a validation
failure; a 400 "Entry already exists" is the duplicate-for-day conflict. -/
inductive JournalError where
  | validation
  | conflict
  deriving DecidableEq, Repr

/-- The document `createEntry` constructs and saves: the `new JournalEntry`
literal of the controller (mood defaulting to `neutral`, tags sanitized and
the falsy ones dropped, `metadata.timezone` taken from the `timezone`
header or defaulting to `"UTC"`), with the pre-save middleware applied — a
new document has both `content` and `entryDate` modified. -/
def builtEntry (newId : Nat) (uid : UserId) (r : EntryInput) (now : Millis)
    (tzHeader : Option String) : Entry :=
  preSave
    { id := newId
      userId := uid
      content := sanitizeInput (jsTrim r.content)
      wordCount := 0
      characterCount := 0
      writingDuration := r.writingDuration
      entryDate := now
      dateString := formatDateString now
      mood := r.mood.getD "neutral"
      tags := ((r.tags.getD []).map (fun t => sanitizeInput (jsTrim t))).filter (fun t => t ≠ "")
      timezone := tzHeader.getD "UTC" }
    true true

/-- `journalController.js` `createEntry`, composed with the route's
validation chain and the model's pre-save middleware:
1. the validation chain rejects malformed bodies (express-validator also
   trims `content` and each tag in place);
2. the controller sanitizes the content and rejects it when empty;
3. the controller rejects `writingDuration > 60`;
4. the controller pre-checks for an existing entry with today's
   `dateString` and reports the duplicate-for-day conflict;
5. otherwise it saves `builtEntry`; a duplicate-key error from the unique
   index is reported as the same duplicate-for-day conflict.
Returns the outcome together with the resulting store. -/
def createEntry (store : Store) (newId : Nat) (uid : UserId) (r : EntryInput)
    (now : Millis) (tzHeader : Option String) : Except JournalError Entry × Store :=
  if createEntryValidation r = false then (Except.error JournalError.validation, store)
  else
    let sanitizedContent := sanitizeInput (jsTrim r.content)
    if (jsTrim sanitizedContent).length = 0 then (Except.error JournalError.validation, store)
    else if 60 < r.writingDuration then (Except.error JournalError.validation, store)
    else
      let today := formatDateString now
      if store.any (fun e => e.userId == uid && e.dateString == today) then
        (Except.error JournalError.conflict, store)
      else
        let e := builtEntry newId uid r now tzHeader
        match mongoInsert store e with
        | Except.error _ => (Except.error JournalError.conflict, store)
        | Except.ok s => (Except.ok e, s)

/-- `journalController.js` `getEntry`: `findOne({ _id: entryId, userId })`,
responding 404 when nothing matches.  The error is carried as the HTTP
status code the controller sends, so that "never 403 Forbidden" is a
statement about the code and not about a restricted result type. -/
def getEntry (store : Store) (uid : UserId) (entryId : Nat) : Except Nat Entry :=
  match store.find? (fun e => e.id == entryId && e.userId == uid) with
  | some e => Except.ok e
  | none => Except.error 404

/-- The inner loop body of the streak computation in `journalController.js`
`getStats`, counting consecutive days with an entry walking backward from
day `d`, with `count` entries already counted: a missing day stops the walk
(the `isToday` skip cannot fire here because `d` is strictly before today),
and the walk also stops once the count reaches 365. -/
def streakRun (hasEntry : Int → Bool) (d : Int) (count : Nat) : Nat :=
  if hasEntry d = false then count
  else
    let c := count + 1
    if 365 ≤ c then c
    else streakRun hasEntry (d - 1) c
termination_by 365 - count
decreasing_by omega

/-- `journalController.js` `getStats` current-streak loop: start at today;
when today has no entry, step to yesterday without breaking the streak
(the `isToday(checkDate)` branch, which can only fire on the first
iteration since `checkDate` only decreases), then count consecutive days
with entries, capped at 365.  `hasEntry d` abstracts the
`findOne({ userId, dateString: formatDateString(checkDate) })` probe for
the UTC day numbered `d`. -/
def currentStreak (hasEntry : Int → Bool) (today : Int) : Nat :=
  if hasEntry today then streakRun hasEntry today 0
  else streakRun hasEntry (today - 1) 0

/-- `userController.js` `getAccountStats` helper: the entries of one user. -/
def userEntries (store : Store) (uid : UserId) : List Entry :=
  store.filter (fun e => e.userId == uid)

/-- `findOne({ userId }).sort({ entryDate: 1 })`: the earliest entry
instant of the user, when any entry exists. -/
def firstEntryDate (store : Store) (uid : UserId) : Option Millis :=
  ((userEntries store uid).map (fun e => e.entryDate)).min?

/-- `Math.floor((new Date() - firstEntry.entryDate) / (1000*60*60*24))`,
and `0` when the user has no entries. -/
def daysSinceFirstEntry (store : Store) (uid : UserId) (now : Millis) : Int :=
  match firstEntryDate store uid with
  | none => 0
  | some d => Int.fdiv (now - d) msPerDay

/-- JavaScript `Math.round`: round half toward positive infinity. -/
def jsRound (q : Rat) : Int := ⌊q + 1 / 2⌋

/-- `userController.js` `getAccountStats` consistency rate:
`daysSinceFirstEntry > 0 ? Math.round((totalEntries / (daysSinceFirstEntry + 1)) * 100) : 0`,
then capped at 100 (`Math.min(100, consistencyRate)`). -/
def consistencyRate (store : Store) (uid : UserId) (now : Millis) : Int :=
  let total : Int := (userEntries store uid).length
  let dsf := daysSinceFirstEntry store uid now
  let rate := if 0 < dsf then jsRound ((total : Rat) / ((dsf : Rat) + 1) * 100) else 0
  min 100 rate

/-- The consistency rate as §4.5 of the spec words it, with no special
case: total entries divided by (days since first entry + 1), as a
percentage, capped at 100.  Stated separately so the code's computation can
be compared against it. -/
def specConsistencyRate (store : Store) (uid : UserId) (now : Millis) : Int :=
  let total : Int := (userEntries store uid).length
  let dsf := daysSinceFirstEntry store uid now
  min 100 (jsRound ((total : Rat) / ((dsf : Rat) + 1) * 100))

/-- Credential-store state of one identity (`models/User.js`):
the failed-login counter and the optional lock deadline.  An absent
`lockUntil` (`$unset`) is `none`; the counter's schema default is 0. -/
structure AuthState where
  loginAttempts : Nat
  lockUntil : Option Millis
  deriving DecidableEq, Repr

/-- `User.js` virtual `isLocked`:
`!!(this.lockUntil && this.lockUntil > Date.now())`. -/
def isLocked (s : AuthState) (now : Millis) : Bool :=
  match s.lockUntil with
  | none => false
  | some t => now < t

/-- `User.js` `incLoginAttempts`, evaluated at instant `now`:
if a previous lock has expired, restart the counter at 1 and clear the
lock; otherwise increment the counter, and when this (5th) failure reaches
5 while the account is not currently locked, set
`lockUntil = now + 2 hours`. -/
def incLoginAttempts (s : AuthState) (now : Millis) : AuthState :=
  match s.lockUntil with
  | some t =>
    if t < now then { loginAttempts := 1, lockUntil := none }
    else
      { loginAttempts := s.loginAttempts + 1
        lockUntil :=
          if 5 ≤ s.loginAttempts + 1 && !isLocked s now then some (now + 2 * 60 * 60 * 1000)
          else s.lockUntil }
  | none =>
    { loginAttempts := s.loginAttempts + 1
      lockUntil :=
        if 5 ≤ s.loginAttempts + 1 && !isLocked s now then some (now + 2 * 60 * 60 * 1000)
        else none }

/-- `User.js` `resetLoginAttempts`:
`$unset: { loginAttempts: 1, lockUntil: 1 }` — both fields cleared, the
counter reading as its schema default 0.  Called only after a fully
successful authentication. -/
def resetLoginAttempts (_s : AuthState) : AuthState :=
  { loginAttempts := 0, lockUntil := none }

/-- A signed JWT refresh token (`helpers.js` `generateRefreshToken`):
payload `{ userId }`, expiry claim, and the issuance context (`nonce`)
that makes distinct signings distinct strings. -/
structure RefreshTok where
  userId : Nat
  exp : Millis
  nonce : Nat
  deriving DecidableEq, Repr

/-- A signed JWT access token (`helpers.js` `generateAccessToken`):
payload `{ userId }` and expiry claim.  Stateless — never persisted. -/
structure AccessTok where
  userId : Nat
  exp : Millis
  deriving DecidableEq, Repr

/-- Default access-token lifetime: 15 minutes. -/
def accessExpireMs : Int := 15 * 60 * 1000

/-- Default refresh-token lifetime: 7 days. -/
def refreshExpireMs : Int := 7 * 24 * 60 * 60 * 1000

/-- A persisted refresh-token record in `user.refreshTokens`. -/
structure StoredToken where
  token : RefreshTok
  expiresAt : Millis
  isActive : Bool
  deriving DecidableEq, Repr

/-- The token-relevant slice of a `User` document. -/
structure UserTokens where
  id : Nat
  refreshTokens : List StoredToken
  deriving DecidableEq, Repr

/-- `helpers.js` `generateAccessToken`: sign `{ userId }` expiring in 15
minutes. -/
def generateAccessToken (uid : Nat) (now : Millis) : AccessTok :=
  { userId := uid, exp := now + accessExpireMs }

/-- `helpers.js` `generateRefreshToken`: sign `{ userId }` expiring in 7
days. -/
def generateRefreshToken (uid : Nat) (now : Millis) (nonce : Nat) : RefreshTok :=
  { userId := uid, exp := now + refreshExpireMs, nonce := nonce }

/-- `jwt.verify` on a refresh token: rejects once the expiry claim is
reached, otherwise yields the decoded `userId`. -/
def verifyRefreshToken (t : RefreshTok) (now : Millis) : Except String Nat :=
  if now < t.exp then Except.ok t.userId else Except.error "TokenExpiredError"

/-- `authController.js` token issuance on register/login:
`generateTokenPair` then push
`{ token, expiresAt: getRefreshTokenExpiry(), isActive: true }` onto
`user.refreshTokens` and save. -/
def issuePair (u : UserTokens) (now : Millis) (nonce : Nat) :
    (AccessTok × RefreshTok) × UserTokens :=
  let a := generateAccessToken u.id now
  let r := generateRefreshToken u.id now nonce
  ((a, r),
   { u with refreshTokens :=
      u.refreshTokens ++ [{ token := r, expiresAt := now + refreshExpireMs, isActive := true }] })

/-- `authController.js` `refreshToken`: verify the JWT, resolve the user
from the decoded id, require a matching persisted record that is active
and unexpired, and respond with a new access token only.  The user
document is not modified — the refresh token is not rotated. -/
def renewAccess (u : UserTokens) (rt : RefreshTok) (now : Millis) : Except String AccessTok :=
  match verifyRefreshToken rt now with
  | Except.error _ => Except.error "Invalid refresh token"
  | Except.ok uid =>
    if uid ≠ u.id then Except.error "User not found"
    else
      match u.refreshTokens.find?
          (fun s => s.token == rt && s.isActive && decide (now < s.expiresAt)) with
      | some _ => Except.ok (generateAccessToken u.id now)
      | none => Except.error "Invalid or expired refresh token"

/-- `authController.js` `logout` inner update: `findIndex` of the record
holding this token, then flip its `isActive` flag to false (the record is
kept, not deleted). -/
def revokeFirst : List StoredToken → RefreshTok → List StoredToken
  | [], _ => []
  | s :: rest, rt =>
    if s.token == rt then { s with isActive := false } :: rest
    else s :: revokeFirst rest rt

/-- `authController.js` `logout`: deactivate the matching persisted refresh
token, when one exists; always responds with success. -/
def logout (u : UserTokens) (rt : RefreshTok) : UserTokens :=
  { u with refreshTokens := revokeFirst u.refreshTokens rt }

/-- `helpers.js` `validatePassword` password-strength policy: length at
least 8, and at least one uppercase letter, one lowercase letter, one
digit, and one character from the special set. -/
def validatePassword (p : String) : Bool :=
  decide (8 ≤ p.length) &&
  p.toList.any (fun c => c.isUpper) &&
  p.toList.any (fun c => c.isLower) &&
  p.toList.any (fun c => c.isDigit) &&
  p.toList.any (fun c => c ∈ "!@#$%^&*(),.?\":{}|<>".toList)

/-- The credential slice of a `User` document: the `password` field holds
either the raw value just assigned or, after the pre-save hook has run,
its bcrypt hash. -/
structure UserCred where
  email : String
  password : String
  deriving DecidableEq, Repr

/-- `User.js` pre-save hook: when the `password` path was modified, replace
it with `bcrypt.hash(password, saltRounds)`; otherwise leave the document
unchanged.  The bcrypt primitive is an external library and is passed in
as `hashF salt plaintext`. -/
def userPreSave (hashF : String → String → String) (salt : String)
    (u : UserCred) (passwordModified : Bool) : UserCred :=
  if passwordModified then { u with password := hashF salt u.password } else u

/-- `authController.js` `register` essentials: a new `User` is constructed
with the raw password and saved, so the pre-save hook hashes it
(`passwordModified` is true for a new document with `password` set). -/
def registerUser (hashF : String → String → String) (salt : String)
    (email rawPassword : String) : UserCred :=
  userPreSave hashF salt { email := email, password := rawPassword } true

/-- `User.js` `comparePassword`:
`bcrypt.compare(candidatePassword, this.password)`; the bcrypt primitive
is passed in as `compareF candidate stored`. -/
def comparePassword (compareF : String → String → Bool)
    (u : UserCred) (candidate : String) : Bool :=
  compareF candidate u.password

/-- Forget an entry's claimed timezone metadata.  Two runs of `createEntry`
that differ only in the `timezone` header are compared through this map. -/
def eraseTz (e : Entry) : Entry := { e with timezone := "" }

/-- The day-uniqueness invariant of the entry collection: no two distinct
documents share the `(userId, dateString)` pair — the invariant the unique
compound index maintains. -/
def UniqueDayInv (store : Store) : Prop :=
  store.Pairwise (fun a b => ¬(a.userId = b.userId ∧ a.dateString = b.dateString))

/-- One `createEntry` request: fresh document id, authenticated user,
request body, arrival instant, and `timezone` header. -/
structure CreateOp where
  newId : Nat
  uid : UserId
  input : EntryInput
  now : Millis
  tz : Option String
  deriving Repr

/-- The store after serving one `createEntry` request (a failed request
leaves the store unchanged). -/
def applyCreate (store : Store) (op : CreateOp) : Store :=
  (createEntry store op.newId op.uid op.input op.now op.tz).2

/-- The store after serving a sequence of `createEntry` requests. -/
def applyCreates (store : Store) (ops : List CreateOp) : Store :=
  ops.foldl applyCreate store

/-- The word count as the specification words it: the number of
whitespace-separated tokens of the trimmed content, stated through
`List.splitOnP` (segments between whitespace characters, empty segments
discarded). -/
def specWordCount (content : String) : Nat :=
  (((jsTrim content).toList.splitOnP (fun c => c.isWhitespace)).filter
    (fun s => !s.isEmpty)).length

/-- A concrete persisted entry used by witnesses and counterexamples. -/
def sampleEntry : Entry :=
  { id := 10
    userId := 1
    content := "hi"
    wordCount := 1
    characterCount := 2
    writingDuration := 30
    entryDate := 1000
    dateString := "1970-01-01"
    mood := "neutral"
    tags := []
    timezone := "UTC" }

/-- A well-formed request body used by witnesses. -/
def sampleInput : EntryInput :=
  { content := "hi there", writingDuration := 45, mood := none, tags := none }

/-! ## Structural lemmas -/

/-- The pre-save middleware on a new document (both `content` and
`entryDate` modified) recomputes the two derived counts and the
calendar-day key, and changes nothing else. -/
theorem preSave_true_true (e : Entry) :
    preSave e true true
      = { e with characterCount := e.content.length,
                 wordCount := jsWordCount e.content,
                 dateString := formatDateString e.entryDate } := rfl

/-! ## Streak lemmas -/

/-- The counting loop never exceeds 365: entered with fewer than 365 days
counted, it returns at most 365. -/
theorem streakRun_le (hasEntry : Int → Bool) :
    ∀ fuel count d, 365 ≤ count + fuel → count < 365 →
      streakRun hasEntry d count ≤ 365 := by
  intro fuel
  induction fuel with
  | zero => intro count d hf hc; omega
  | succ n ih =>
    intro count d hf hc
    rw [streakRun]
    by_cases h : hasEntry d = false
    · simp [h]
      omega
    · have h1 : hasEntry d = true := by
        cases hb : hasEntry d
        · exact absurd hb h
        · rfl
      simp [h1]
      by_cases h2 : 364 ≤ count
      · rw [if_pos h2]
        omega
      · rw [if_neg h2]
        exact ih (count + 1) (d - 1) (by omega) (by omega)

/-- The counting loop counts exactly the consecutive run of days with
entries: if days `d, d-1, …, d-(k-1)` all have entries and day `d-k` has
none, and the cap is not hit, the loop returns `count + k`. -/
theorem streakRun_count (hasEntry : Int → Bool) :
    ∀ (k : Nat) (count : Nat) (d : Int),
      (∀ i : Nat, i < k → hasEntry (d - i) = true) →
      hasEntry (d - k) = false →
      count + k ≤ 365 →
      streakRun hasEntry d count = count + k := by
  intro k
  induction k with
  | zero =>
    intro count d hrun hmiss hb
    rw [streakRun]
    have h0 : hasEntry d = false := by simpa using hmiss
    simp [h0]
  | succ n ih =>
    intro count d hrun hmiss hb
    rw [streakRun]
    have h0 : hasEntry d = true := by simpa using hrun 0 (Nat.succ_pos n)
    simp [h0]
    by_cases h2 : 364 ≤ count
    · rw [if_pos h2]
      omega
    · rw [if_neg h2]
      have hrun' : ∀ i : Nat, i < n → hasEntry (d - 1 - i) = true := by
        intro i hi
        have := hrun (i + 1) (by omega)
        have harg : d - 1 - (i : Int) = d - ((i : Nat) + 1 : Nat) := by
          push_cast
          ring
        rw [harg]
        exact this
      have hmiss' : hasEntry (d - 1 - n) = false := by
        have harg : d - 1 - (n : Int) = d - ((n : Nat) + 1 : Nat) := by
          push_cast
          ring
        rw [harg]
        exact hmiss
      have := ih (count + 1) (d - 1) hrun' hmiss' (by omega)
      rw [this]
      omega

/-- C2: `currentStreak` walks backward one calendar day at a time from
today and counts consecutive days with an entry; a missing entry for today
does not break the streak (the walk continues to yesterday) but a missing
entry for any earlier day terminates the walk; the result is capped at
365.  In particular, entries on today, yesterday and the day before with a
gap at day minus three give streak 3; no entry today but entries yesterday
and the day before give streak 2. -/
theorem claim_C2 (hasEntry : Int → Bool) (today : Int) :
    currentStreak hasEntry today ≤ 365
    ∧ (∀ k : Nat, 1 ≤ k → k ≤ 365 →
        (∀ i : Nat, i < k → hasEntry (today - i) = true) →
        hasEntry (today - k) = false →
        currentStreak hasEntry today = k)
    ∧ (hasEntry today = true → hasEntry (today - 1) = true →
        hasEntry (today - 2) = true → hasEntry (today - 3) = false →
        currentStreak hasEntry today = 3)
    ∧ (hasEntry today = false → hasEntry (today - 1) = true →
        hasEntry (today - 2) = true → hasEntry (today - 3) = false →
        currentStreak hasEntry today = 2) := by
  have hgen : ∀ k : Nat, 1 ≤ k → k ≤ 365 →
      (∀ i : Nat, i < k → hasEntry (today - i) = true) →
      hasEntry (today - k) = false →
      currentStreak hasEntry today = k := by
    intro k h1 h365 hrun hmiss
    have ht : hasEntry today = true := by simpa using hrun 0 (by omega)
    unfold currentStreak
    rw [if_pos ht]
    have := streakRun_count hasEntry k 0 today hrun hmiss (by omega)
    simpa using this
  refine ⟨?_, hgen, ?_, ?_⟩
  · unfold currentStreak
    by_cases ht : hasEntry today = true
    · rw [if_pos ht]
      exact streakRun_le hasEntry 365 0 today (by omega) (by omega)
    · rw [if_neg ht]
      exact streakRun_le hasEntry 365 0 (today - 1) (by omega) (by omega)
  · intro h0 h1 h2 h3
    apply hgen 3 (by omega) (by omega)
    · intro i hi
      interval_cases i
      · simpa using h0
      · simpa using h1
      · simpa using h2
    · simpa using h3
  · intro h0 h1 h2 h3
    unfold currentStreak
    rw [if_neg (by simp [h0])]
    have harr1 : ∀ i : Nat, i < 2 → hasEntry (today - 1 - i) = true := by
      intro i hi
      interval_cases i
      · simpa using h1
      · have harg : today - 1 - ((1 : Nat) : Int) = today - 2 := by push_cast; ring
        rw [harg]
        exact h2
    have harr2 : hasEntry (today - 1 - (2 : Nat)) = false := by
      have harg : today - 1 - ((2 : Nat) : Int) = today - 3 := by push_cast; ring
      rw [harg]
      exact h3
    have := streakRun_count hasEntry 2 0 (today - 1) harr1 harr2 (by omega)
    simpa using this

/-- Witness for C2 at concrete inputs: entries on days 0, −1, −2 of a gap
at −3 give streak 3 with today = 0; entries on −1 and −2 only give
streak 2. -/
theorem claim_C2_witness :
    currentStreak (fun d => decide (d = 0 ∨ d = -1 ∨ d = -2)) 0 = 3
    ∧ currentStreak (fun d => decide (d = -1 ∨ d = -2)) 0 = 2 := by
  constructor
  · exact (claim_C2 (fun d => decide (d = 0 ∨ d = -1 ∨ d = -2)) 0).2.2.1
      (by decide) (by decide) (by decide) (by decide)
  · exact (claim_C2 (fun d => decide (d = -1 ∨ d = -2)) 0).2.2.2
      (by decide) (by decide) (by decide) (by decide)

/-- C3: from a fresh (or reset) state, the 5th cumulative failed attempt
sets the lock deadline to the instant of that failure plus 2 hours and the
counter to 5; the account then reads as locked exactly while the deadline
lies in the future; a failure recorded after a previous lock has expired
restarts the counter at 1 and clears the stale deadline; a successful
authentication resets the counter to 0 and clears the lock. -/
theorem claim_C3 (t1 t2 t3 t4 t5 : Millis) (s : AuthState) (t now : Millis) :
    (incLoginAttempts (incLoginAttempts (incLoginAttempts (incLoginAttempts
        (incLoginAttempts { loginAttempts := 0, lockUntil := none } t1) t2) t3) t4) t5
      = { loginAttempts := 5, lockUntil := some (t5 + 2 * 60 * 60 * 1000) })
    ∧ (∀ m : Millis,
        isLocked { loginAttempts := 5, lockUntil := some (t5 + 2 * 60 * 60 * 1000) } m = true
          ↔ m < t5 + 2 * 60 * 60 * 1000)
    ∧ (s.lockUntil = some t → t < now →
        incLoginAttempts s now = { loginAttempts := 1, lockUntil := none })
    ∧ resetLoginAttempts s = { loginAttempts := 0, lockUntil := none } := by
  refine ⟨?_, ?_, ?_, ?_⟩
  · simp [incLoginAttempts, isLocked]
  · intro m
    simp [isLocked]
  · intro hlock hlt
    simp [incLoginAttempts, hlock, hlt]
  · rfl

/-- Witness for C3 at concrete instants: five failures at instants 0–4
lock until 4 + 2 hours; the state is locked at instant 7200003 and not at
7200004; a failure at instant 10 on a lock expired at 5 restarts the
counter at 1; reset clears a mid-count state. -/
theorem claim_C3_witness :
    (incLoginAttempts (incLoginAttempts (incLoginAttempts (incLoginAttempts
        (incLoginAttempts { loginAttempts := 0, lockUntil := none } 0) 1) 2) 3) 4
      = { loginAttempts := 5, lockUntil := some 7200004 })
    ∧ isLocked { loginAttempts := 5, lockUntil := some 7200004 } 7200003 = true
    ∧ incLoginAttempts { loginAttempts := 3, lockUntil := some 5 } 10
        = { loginAttempts := 1, lockUntil := none }
    ∧ resetLoginAttempts { loginAttempts := 3, lockUntil := some 5 }
        = { loginAttempts := 0, lockUntil := none } := by
  have h := claim_C3 0 1 2 3 4 { loginAttempts := 3, lockUntil := some 5 } 5 10
  refine ⟨by simpa using h.1, ?_, h.2.2.1 rfl (by decide), h.2.2.2⟩
  have := (h.2.1 7200003).mpr (by decide)
  simpa using this

/-! ## Token lifecycle lemmas -/

/-- `logout` on a list whose earlier records hold other tokens deactivates
exactly the final, matching record. -/
theorem revokeFirst_append_fresh (rt : RefreshTok) (rec : StoredToken)
    (hrec : rec.token = rt) :
    ∀ l : List StoredToken, (∀ s ∈ l, s.token ≠ rt) →
      revokeFirst (l ++ [rec]) rt = l ++ [{ rec with isActive := false }] := by
  intro l
  induction l with
  | nil =>
    intro _
    simp [revokeFirst, hrec]
  | cons s rest ih =>
    intro hfresh
    have hs : s.token ≠ rt := hfresh s (List.mem_cons_self s rest)
    have hbeq : (s.token == rt) = false := by
      simp [hs]
    rw [List.cons_append]
    simp [revokeFirst, hbeq]
    exact ih (fun x hx => hfresh x (List.mem_cons_of_mem s hx))

/-- C4: issuing a token pair appends one active persisted refresh record
and does not touch the earlier ones; renewing with the returned refresh
token succeeds at any instant before its expiry and yields a structurally
valid new access token (the bearer's id, expiring 15 minutes later), while
the persisted token list is read, never written, so the same unrevoked
refresh token keeps renewing until its natural expiry; after `logout`
revokes it, renewal with it always fails. -/
theorem claim_C4 (u : UserTokens) (now : Millis) (nonce : Nat)
    (hfresh : ∀ s ∈ u.refreshTokens, s.token ≠ generateRefreshToken u.id now nonce) :
    ((issuePair u now nonce).2.refreshTokens
      = u.refreshTokens
        ++ [{ token := (issuePair u now nonce).1.2,
              expiresAt := now + refreshExpireMs, isActive := true }])
    ∧ (∀ m : Millis, m < now + refreshExpireMs →
        renewAccess (issuePair u now nonce).2 (issuePair u now nonce).1.2 m
          = Except.ok (generateAccessToken u.id m))
    ∧ (∀ m : Millis, (generateAccessToken u.id m).userId = u.id
        ∧ (generateAccessToken u.id m).exp = m + accessExpireMs)
    ∧ (∀ m : Millis,
        (renewAccess (logout (issuePair u now nonce).2 (issuePair u now nonce).1.2)
            (issuePair u now nonce).1.2 m).isOk = false) := by
  set r := generateRefreshToken u.id now nonce with hr
  have hpair1 : (issuePair u now nonce).1.2 = r := rfl
  have hpair2 : (issuePair u now nonce).2.refreshTokens
      = u.refreshTokens ++ [{ token := r, expiresAt := now + refreshExpireMs, isActive := true }] :=
    rfl
  refine ⟨by rw [hpair1]; exact hpair2, ?_, fun m => ⟨rfl, rfl⟩, ?_⟩
  · intro m hm
    have hexp : m < r.exp := by
      rw [hr]
      simpa [generateRefreshToken] using hm
    have hsome : ((issuePair u now nonce).2.refreshTokens.find?
        (fun s => s.token == r && s.isActive && decide (m < s.expiresAt))).isSome := by
      rw [List.find?_isSome]
      refine ⟨{ token := r, expiresAt := now + refreshExpireMs, isActive := true }, ?_, ?_⟩
      · rw [hpair2]
        simp
      · simpa using hm
    obtain ⟨x, hx⟩ := Option.isSome_iff_exists.mp hsome
    rw [hpair1]
    unfold renewAccess
    rw [verifyRefreshToken, if_pos hexp]
    dsimp only
    rw [if_neg (fun hne => hne rfl)]
    rw [hx]
    rfl
  · intro m
    have hrevoked : (logout (issuePair u now nonce).2 r).refreshTokens
        = u.refreshTokens
          ++ [{ token := r, expiresAt := now + refreshExpireMs, isActive := false }] := by
      show revokeFirst (issuePair u now nonce).2.refreshTokens r = _
      rw [hpair2]
      exact revokeFirst_append_fresh r
        { token := r, expiresAt := now + refreshExpireMs, isActive := true } rfl
        u.refreshTokens (by
          intro s hs
          simpa [hr] using hfresh s hs)
    have hnone : ((logout (issuePair u now nonce).2 r).refreshTokens.find?
        (fun s => s.token == r && s.isActive && decide (m < s.expiresAt))) = none := by
      rw [List.find?_eq_none]
      intro x hx
      rw [hrevoked] at hx
      rcases List.mem_append.mp hx with hmem | hmem
      · have : x.token ≠ r := by simpa [hr] using hfresh x hmem
        simp [this]
      · have : x = { token := r, expiresAt := now + refreshExpireMs, isActive := false } := by
          simpa using hmem
        simp [this]
    rw [hpair1]
    unfold renewAccess
    by_cases hexp : m < r.exp
    · rw [verifyRefreshToken, if_pos hexp]
      dsimp only
      rw [if_neg (fun hne => hne rfl)]
      rw [hnone]
      rfl
    · rw [verifyRefreshToken, if_neg hexp]
      rfl

/-- Witness for C4 at concrete inputs: a user with no prior tokens issues a
pair at instant 0; renewal with the refresh token at instant 1000
succeeds, and after logout it fails. -/
theorem claim_C4_witness :
    ((issuePair { id := 7, refreshTokens := [] } 0 0).2.refreshTokens
      = [{ token := (issuePair { id := 7, refreshTokens := [] } 0 0).1.2,
           expiresAt := refreshExpireMs, isActive := true }])
    ∧ renewAccess (issuePair { id := 7, refreshTokens := [] } 0 0).2
        (issuePair { id := 7, refreshTokens := [] } 0 0).1.2 1000
        = Except.ok (generateAccessToken 7 1000)
    ∧ (renewAccess
        (logout (issuePair { id := 7, refreshTokens := [] } 0 0).2
          (issuePair { id := 7, refreshTokens := [] } 0 0).1.2)
        (issuePair { id := 7, refreshTokens := [] } 0 0).1.2 1000).isOk = false := by
  have h := claim_C4 { id := 7, refreshTokens := [] } 0 0 (by simp)
  refine ⟨by simpa using h.1, h.2.1 1000 (by decide), h.2.2.2 1000⟩

/-- C8: for every valid registration, under any hashing primitive
satisfying bcrypt's contract (comparing a plaintext against its own hash
succeeds, and a hash never equals its plaintext), the stored password is
the hash — never the plaintext — and `comparePassword` with the original
plaintext succeeds. -/
theorem claim_C8 (hashF : String → String → String) (compareF : String → String → Bool)
    (hRound : ∀ s p, compareF p (hashF s p) = true)
    (hNe : ∀ s p, hashF s p ≠ p)
    (salt email raw : String) (hvalid : validatePassword raw = true) :
    (registerUser hashF salt email raw).password ≠ raw
    ∧ comparePassword compareF (registerUser hashF salt email raw) raw = true := by
  constructor
  · show hashF salt raw ≠ raw
    exact hNe salt raw
  · show compareF raw (hashF salt raw) = true
    exact hRound salt raw

/-- Witness for C8: a concrete hashing pair satisfying the contract
(prefixing a 7-character tag, compared by stripping it), applied to the
registration of `a@b.com` with the strong password `Str0ng!Pass`. -/
theorem claim_C8_witness :
    (registerUser (fun _s p => "$2b$12$" ++ p) "salt" "a@b.com" "Str0ng!Pass").password
        ≠ "Str0ng!Pass"
    ∧ comparePassword (fun c h => h == "$2b$12$" ++ c)
        (registerUser (fun _s p => "$2b$12$" ++ p) "salt" "a@b.com" "Str0ng!Pass")
        "Str0ng!Pass" = true := by
  exact claim_C8 (fun _s p => "$2b$12$" ++ p) (fun c h => h == "$2b$12$" ++ c)
    (fun s p => by simp)
    (fun s p => by
      intro h
      have hlen := congrArg String.length h
      rw [String.length_append] at hlen
      have h7 : ("$2b$12$" : String).length = 7 := rfl
      rw [h7] at hlen
      omega)
    "salt" "a@b.com" "Str0ng!Pass" (by rfl)

/-- C9: `getEntry` returns an entry only when the requesting identity owns
it; when no entry of the store has both the requested id and the
requesting owner — the id does not exist, or the entry belongs to someone
else — the response is 404 Not Found; and every error response is 404, so
403 Forbidden is never produced and "does not exist" is indistinguishable
from "exists but not yours". -/
theorem claim_C9 (store : Store) (uid : UserId) (entryId : Nat) :
    (∀ e : Entry, getEntry store uid entryId = Except.ok e →
      e ∈ store ∧ e.userId = uid ∧ e.id = entryId)
    ∧ ((∀ e ∈ store, ¬(e.id = entryId ∧ e.userId = uid)) →
        getEntry store uid entryId = Except.error 404)
    ∧ (∀ n : Nat, getEntry store uid entryId = Except.error n → n = 404) := by
  refine ⟨?_, ?_, ?_⟩
  · intro e he
    unfold getEntry at he
    cases hfind : store.find? (fun x => x.id == entryId && x.userId == uid) with
    | none =>
      rw [hfind] at he
      simp at he
    | some y =>
      rw [hfind] at he
      have hy := List.find?_some hfind
      have hmem : y ∈ store := List.mem_of_find?_eq_some hfind
      have hey : y = e := by simpa using he
      subst hey
      simp only [Bool.and_eq_true, beq_iff_eq] at hy
      exact ⟨hmem, hy.2, hy.1⟩
  · intro hnone
    unfold getEntry
    have hfind : store.find? (fun x => x.id == entryId && x.userId == uid) = none := by
      rw [List.find?_eq_none]
      intro x hx
      simpa using hnone x hx
    rw [hfind]
  · intro n hn
    unfold getEntry at hn
    cases hfind : store.find? (fun x => x.id == entryId && x.userId == uid) with
    | none =>
      rw [hfind] at hn
      have : (404 : Nat) = n := by simpa using hn
      omega
    | some y =>
      rw [hfind] at hn
      simp at hn

/-- Witness for C9: looking up entry 10 (owned by identity 1) as
identity 2, and looking up the nonexistent id 99 as its owner, both
answer 404. -/
theorem claim_C9_witness :
    getEntry [sampleEntry] 2 10 = Except.error 404
    ∧ getEntry [sampleEntry] 1 99 = Except.error 404 := by
  constructor
  · exact (claim_C9 [sampleEntry] 2 10).2.1 (by
      intro e he
      simp only [List.mem_singleton] at he
      subst he
      decide)
  · exact (claim_C9 [sampleEntry] 1 99).2.1 (by
      intro e he
      simp only [List.mem_singleton] at he
      subst he
      decide)

/-! ## Ledger lemmas -/

theorem builtEntry_userId (newId : Nat) (uid : UserId) (r : EntryInput) (now : Millis)
    (tz : Option String) : (builtEntry newId uid r now tz).userId = uid := rfl

theorem builtEntry_dateString (newId : Nat) (uid : UserId) (r : EntryInput) (now : Millis)
    (tz : Option String) : (builtEntry newId uid r now tz).dateString = formatDateString now := rfl

theorem builtEntry_entryDate (newId : Nat) (uid : UserId) (r : EntryInput) (now : Millis)
    (tz : Option String) : (builtEntry newId uid r now tz).entryDate = now := rfl

theorem builtEntry_timezone (newId : Nat) (uid : UserId) (r : EntryInput) (now : Millis)
    (tz : Option String) : (builtEntry newId uid r now tz).timezone = tz.getD "UTC" := rfl

theorem builtEntry_content (newId : Nat) (uid : UserId) (r : EntryInput) (now : Millis)
    (tz : Option String) : (builtEntry newId uid r now tz).content = sanitizeInput (jsTrim r.content) :=
  rfl

theorem builtEntry_characterCount (newId : Nat) (uid : UserId) (r : EntryInput) (now : Millis)
    (tz : Option String) :
    (builtEntry newId uid r now tz).characterCount = (sanitizeInput (jsTrim r.content)).length := rfl

theorem builtEntry_wordCount (newId : Nat) (uid : UserId) (r : EntryInput) (now : Millis)
    (tz : Option String) :
    (builtEntry newId uid r now tz).wordCount = jsWordCount (sanitizeInput (jsTrim r.content)) := by
  unfold builtEntry
  rw [preSave_true_true]

/-- Every run of `createEntry` either fails and leaves the store unchanged,
or succeeds with the built document prepended, in which case the store had
no entry for that user and day. -/
theorem createEntry_cases (store : Store) (newId : Nat) (uid : UserId) (r : EntryInput)
    (now : Millis) (tz : Option String) :
    (∃ err, createEntry store newId uid r now tz = (Except.error err, store))
    ∨ (createEntry store newId uid r now tz
        = (Except.ok (builtEntry newId uid r now tz), builtEntry newId uid r now tz :: store)
      ∧ store.any (fun e => e.userId == uid && e.dateString == formatDateString now) = false) := by
  dsimp only [createEntry]
  split_ifs with h1 h2 h3 h4
  · exact Or.inl ⟨_, rfl⟩
  · exact Or.inl ⟨_, rfl⟩
  · exact Or.inl ⟨_, rfl⟩
  · exact Or.inl ⟨_, rfl⟩
  · right
    have hany : store.any (fun e => e.userId == uid && e.dateString == formatDateString now)
        = false := by
      simpa using h4
    refine ⟨?_, hany⟩
    have hcond : ¬(store.any (fun u =>
        u.userId == (builtEntry newId uid r now tz).userId
        && u.dateString == (builtEntry newId uid r now tz).dateString) = true) := by
      simpa only [builtEntry_userId, builtEntry_dateString] using h4
    unfold mongoInsert
    rw [if_neg hcond]

/-- `createEntryValidation` characterized: the body passes the route's
validation chain exactly when the trimmed content has length 1–2000, the
writing duration lies in the closed interval [1, 60], any supplied mood is
one of the five enumerated values, and every supplied tag trims to length
1–50. -/
theorem createEntryValidation_iff (r : EntryInput) :
    createEntryValidation r = true ↔
      (1 ≤ (jsTrim r.content).length ∧ (jsTrim r.content).length ≤ 2000
       ∧ 1 ≤ r.writingDuration ∧ r.writingDuration ≤ 60
       ∧ (∀ m, r.mood = some m → m ∈ moodEnum)
       ∧ (∀ ts, r.tags = some ts → ∀ t ∈ ts, 1 ≤ (jsTrim t).length ∧ (jsTrim t).length ≤ 50)) := by
  unfold createEntryValidation
  cases hm : r.mood <;> cases ht : r.tags <;>
    simp [List.all_eq_true, and_assoc] <;> tauto

/-- A well-formed request against a store with no entry for that user and
day is accepted: the built document is persisted. -/
theorem createEntry_accepts (store : Store) (newId : Nat) (uid : UserId) (r : EntryInput)
    (now : Millis) (tz : Option String)
    (hv : createEntryValidation r = true)
    (hc : (jsTrim (sanitizeInput (jsTrim r.content))).length ≠ 0)
    (hdup : store.any (fun e => e.userId == uid && e.dateString == formatDateString now)
      = false) :
    createEntry store newId uid r now tz
      = (Except.ok (builtEntry newId uid r now tz), builtEntry newId uid r now tz :: store) := by
  have hdur : ¬(60 < r.writingDuration) := by
    have := ((createEntryValidation_iff r).mp hv).2.2.2.1
    exact not_lt.mpr this
  dsimp only [createEntry]
  rw [if_neg (by simp [hv]), if_neg hc, if_neg hdur, if_neg (by simp [hdup])]
  have hcond : ¬(store.any (fun u =>
      u.userId == (builtEntry newId uid r now tz).userId
      && u.dateString == (builtEntry newId uid r now tz).dateString) = true) := by
    simp only [builtEntry_userId, builtEntry_dateString, hdup]
    exact Bool.false_ne_true
  unfold mongoInsert
  rw [if_neg hcond]

/-- A well-formed request against a store that already holds an entry for
that user and day deterministically fails with the duplicate-for-day
conflict and leaves the store unchanged. -/
theorem createEntry_conflict (store : Store) (newId : Nat) (uid : UserId) (r : EntryInput)
    (now : Millis) (tz : Option String)
    (hv : createEntryValidation r = true)
    (hc : (jsTrim (sanitizeInput (jsTrim r.content))).length ≠ 0)
    (hdup : store.any (fun e => e.userId == uid && e.dateString == formatDateString now)
      = true) :
    createEntry store newId uid r now tz = (Except.error JournalError.conflict, store) := by
  have hdur : ¬(60 < r.writingDuration) := by
    have := ((createEntryValidation_iff r).mp hv).2.2.2.1
    exact not_lt.mpr this
  dsimp only [createEntry]
  rw [if_neg (by simp [hv]), if_neg hc, if_neg hdur, if_pos hdup]

/-- Inserting through the unique index preserves the day-uniqueness
invariant. -/
theorem mongoInsert_inv (store : Store) (e : Entry) (s : Store)
    (h : mongoInsert store e = Except.ok s) (hinv : UniqueDayInv store) : UniqueDayInv s := by
  unfold mongoInsert at h
  by_cases hc : store.any (fun u => u.userId == e.userId && u.dateString == e.dateString) = true
  · rw [if_pos hc] at h
    simp at h
  · rw [if_neg hc] at h
    have hs : s = e :: store := by simpa using h.symm
    subst hs
    refine List.Pairwise.cons ?_ hinv
    intro b hb hcontra
    apply hc
    rw [List.any_eq_true]
    exact ⟨b, hb, by simp [hcontra.1.symm, hcontra.2.symm]⟩

/-- Serving any single `createEntry` request preserves the day-uniqueness
invariant. -/
theorem createEntry_inv (store : Store) (newId : Nat) (uid : UserId) (r : EntryInput)
    (now : Millis) (tz : Option String) (hinv : UniqueDayInv store) :
    UniqueDayInv (createEntry store newId uid r now tz).2 := by
  rcases createEntry_cases store newId uid r now tz with ⟨err, heq⟩ | ⟨heq, hany⟩
  · rw [heq]
    exact hinv
  · rw [heq]
    refine List.Pairwise.cons ?_ hinv
    intro b hb hcontra
    rw [List.any_eq_false] at hany
    apply hany b hb
    simp only [builtEntry_userId, builtEntry_dateString] at hcontra
    simp [hcontra.1.symm, hcontra.2.symm]

/-- C1: starting from any store satisfying it, the one-entry-per-identity-
per-day invariant is preserved by any sequence of `createEntry` requests;
a well-formed creation attempt for an identity and day that already has an
entry fails deterministically with the duplicate-for-day conflict leaving
the store unchanged; and the uniqueness is enforced by the persistence
layer's atomic unique index itself — a direct insert that bypasses the
controller's pre-check is still rejected with a duplicate-key error. -/
theorem claim_C1 :
    (∀ (init : Store) (ops : List CreateOp),
      UniqueDayInv init → UniqueDayInv (applyCreates init ops))
    ∧ (∀ (store : Store) (newId : Nat) (uid : UserId) (r : EntryInput) (now : Millis)
        (tz : Option String),
        createEntryValidation r = true →
        (jsTrim (sanitizeInput (jsTrim r.content))).length ≠ 0 →
        store.any (fun e => e.userId == uid && e.dateString == formatDateString now) = true →
        createEntry store newId uid r now tz = (Except.error JournalError.conflict, store))
    ∧ (∀ (store : Store) (e : Entry),
        (∃ u ∈ store, u.userId = e.userId ∧ u.dateString = e.dateString) →
        mongoInsert store e = Except.error DbError.duplicateKey) := by
  refine ⟨?_, ?_, ?_⟩
  · intro init ops
    induction ops generalizing init with
    | nil => intro h; exact h
    | cons op rest ih =>
      intro h
      exact ih (applyCreate init op) (createEntry_inv init op.newId op.uid op.input op.now op.tz h)
  · intro store newId uid r now tz hv hc hdup
    exact createEntry_conflict store newId uid r now tz hv hc hdup
  · intro store e ⟨u, hu, h1, h2⟩
    unfold mongoInsert
    rw [if_pos]
    rw [List.any_eq_true]
    exact ⟨u, hu, by simp [h1, h2]⟩

/-- Witness for C1: the invariant holds after two same-day requests served
from an empty store; a well-formed duplicate attempt against a store
already holding the identity's entry for that day conflicts and leaves the
store unchanged; and the raw index-backed insert of a second document with
`sampleEntry`'s user and day is rejected. -/
theorem claim_C1_witness :
    UniqueDayInv (applyCreates []
      [{ newId := 1, uid := 7, input := sampleInput, now := 1000, tz := none },
       { newId := 2, uid := 7, input := sampleInput, now := 2000, tz := none }])
    ∧ createEntry [sampleEntry] 11 1 sampleInput 1000 none
        = (Except.error JournalError.conflict, [sampleEntry])
    ∧ mongoInsert [sampleEntry] sampleEntry = Except.error DbError.duplicateKey := by
  refine ⟨claim_C1.1 [] _ List.Pairwise.nil, ?_, ?_⟩
  · exact claim_C1.2.1 [sampleEntry] 11 1 sampleInput 1000 none (by decide) (by decide)
      (by decide)
  · exact claim_C1.2.2 [sampleEntry] sampleEntry
      ⟨sampleEntry, List.mem_singleton_self sampleEntry, rfl, rfl⟩

/-- C5: a successfully created entry's calendar-day key equals the
`YYYY-MM-DD` rendering, in UTC, of its creation instant; the claimed
timezone is stored as metadata only; and two runs of `createEntry` that
differ only in the `timezone` header agree everywhere except that stored
metadata field — in particular the uniqueness key never depends on the
client-supplied timezone. -/
theorem claim_C5 (store : Store) (newId : Nat) (uid : UserId) (r : EntryInput)
    (now : Millis) (tz1 tz2 : Option String) :
    (∀ e s, createEntry store newId uid r now tz1 = (Except.ok e, s) →
      e.dateString = formatDateString e.entryDate
      ∧ e.entryDate = now
      ∧ e.timezone = tz1.getD "UTC")
    ∧ Except.map eraseTz (createEntry store newId uid r now tz1).1
        = Except.map eraseTz (createEntry store newId uid r now tz2).1
    ∧ (createEntry store newId uid r now tz1).2.map eraseTz
        = (createEntry store newId uid r now tz2).2.map eraseTz := by
  refine ⟨?_, ?_⟩
  · intro e s heq
    rcases createEntry_cases store newId uid r now tz1 with ⟨err, hcase⟩ | ⟨hcase, hany⟩
    · rw [hcase] at heq
      have := congrArg Prod.fst heq
      simp at this
    · rw [hcase] at heq
      have he : e = builtEntry newId uid r now tz1 := by
        have := congrArg Prod.fst heq
        simpa using this.symm
      subst he
      exact ⟨by rw [builtEntry_dateString, builtEntry_entryDate],
        builtEntry_entryDate newId uid r now tz1, builtEntry_timezone newId uid r now tz1⟩
  · dsimp only [createEntry]
    split_ifs with h1 h2 h3 h4
    · exact ⟨rfl, rfl⟩
    · exact ⟨rfl, rfl⟩
    · exact ⟨rfl, rfl⟩
    · exact ⟨rfl, rfl⟩
    · unfold mongoInsert
      simp only [builtEntry_userId, builtEntry_dateString]
      split_ifs
      exact ⟨rfl, rfl⟩

/-- Witness for C5: a request served at a concrete instant with the
`America/New_York` header stores the UTC day key of the instant and the
header only as metadata. -/
theorem claim_C5_witness :
    (builtEntry 1 7 sampleInput 1760227200000 (some "America/New_York")).dateString
        = formatDateString (builtEntry 1 7 sampleInput 1760227200000
            (some "America/New_York")).entryDate
    ∧ (builtEntry 1 7 sampleInput 1760227200000 (some "America/New_York")).entryDate
        = 1760227200000
    ∧ (builtEntry 1 7 sampleInput 1760227200000 (some "America/New_York")).timezone
        = "America/New_York" := by
  exact (claim_C5 [] 1 7 sampleInput 1760227200000 (some "America/New_York") none).1
    (builtEntry 1 7 sampleInput 1760227200000 (some "America/New_York"))
    (builtEntry 1 7 sampleInput 1760227200000 (some "America/New_York") :: [])
    (createEntry_accepts [] 1 7 sampleInput 1760227200000 (some "America/New_York")
      (by decide) (by decide) (by decide))

/-- Counterexample for C6 as stated: the writing duration 1/2 lies in the
interval (0, 60], yet the request is rejected with a validation error —
the route validator's lower bound is 1, not "strictly greater than 0". -/
theorem claim_C6_counterexample :
    (Rat.mk' 1 2 : Rat) = 1 / 2
    ∧ (0 : Rat) < Rat.mk' 1 2 ∧ (Rat.mk' 1 2 : Rat) ≤ 60
    ∧ (createEntry [] 1 7
        { content := "hello", writingDuration := Rat.mk' 1 2, mood := none, tags := none }
        0 none).1
      = Except.error JournalError.validation := by
  refine ⟨by norm_num [Rat.mk'_eq_divInt, Rat.divInt_eq_div], by decide, by decide, by decide⟩

/-- C6 (amended): the route validation accepts a body exactly when the
trimmed content has length 1–2000, the writing duration lies in the closed
interval [1, 60] — so duration 61 is rejected with a validation error, and
every duration in [1, 60] passes — any supplied mood is one of the 5
enumerated values, and every supplied tag trims to length 1–50; a
well-formed request on a day that already has an entry for the identity
returns a conflict with the ledger unchanged, while on a free day it is
accepted and persisted. -/
theorem claim_C6_amended :
    (∀ r : EntryInput, createEntryValidation r = true ↔
      (1 ≤ (jsTrim r.content).length ∧ (jsTrim r.content).length ≤ 2000
       ∧ 1 ≤ r.writingDuration ∧ r.writingDuration ≤ 60
       ∧ (∀ m, r.mood = some m → m ∈ moodEnum)
       ∧ (∀ ts, r.tags = some ts → ∀ t ∈ ts,
            1 ≤ (jsTrim t).length ∧ (jsTrim t).length ≤ 50)))
    ∧ (∀ (store : Store) (newId : Nat) (uid : UserId) (r : EntryInput) (now : Millis)
        (tz : Option String), r.writingDuration = 61 →
        (createEntry store newId uid r now tz).1 = Except.error JournalError.validation)
    ∧ (∀ (store : Store) (newId : Nat) (uid : UserId) (r : EntryInput) (now : Millis)
        (tz : Option String),
        createEntryValidation r = true →
        (jsTrim (sanitizeInput (jsTrim r.content))).length ≠ 0 →
        store.any (fun e => e.userId == uid && e.dateString == formatDateString now) = false →
        createEntry store newId uid r now tz
          = (Except.ok (builtEntry newId uid r now tz), builtEntry newId uid r now tz :: store))
    ∧ (∀ (store : Store) (newId : Nat) (uid : UserId) (r : EntryInput) (now : Millis)
        (tz : Option String),
        createEntryValidation r = true →
        (jsTrim (sanitizeInput (jsTrim r.content))).length ≠ 0 →
        store.any (fun e => e.userId == uid && e.dateString == formatDateString now) = true →
        createEntry store newId uid r now tz = (Except.error JournalError.conflict, store)) := by
  refine ⟨createEntryValidation_iff, ?_, createEntry_accepts, createEntry_conflict⟩
  intro store newId uid r now tz h61
  have hv : createEntryValidation r = false := by
    cases hb : createEntryValidation r
    · rfl
    · have := ((createEntryValidation_iff r).mp hb).2.2.2.1
      rw [h61] at this
      norm_num at this
  dsimp only [createEntry]
  rw [if_pos hv]

/-- Witness for C6 (amended): a duration-61 request is rejected; the
sample request is accepted on an empty store; repeating it the same day
conflicts and leaves the single-entry ledger unchanged. -/
theorem claim_C6_witness :
    (createEntry [] 1 7
        { content := "hello", writingDuration := 61, mood := none, tags := none } 0 none).1
      = Except.error JournalError.validation
    ∧ createEntry [] 1 7 sampleInput 1000 none
        = (Except.ok (builtEntry 1 7 sampleInput 1000 none),
           [builtEntry 1 7 sampleInput 1000 none])
    ∧ createEntry [builtEntry 1 7 sampleInput 1000 none] 2 7 sampleInput 2000 none
        = (Except.error JournalError.conflict, [builtEntry 1 7 sampleInput 1000 none]) := by
  refine ⟨?_, ?_, ?_⟩
  · exact claim_C6_amended.2.1 [] 1 7
      { content := "hello", writingDuration := 61, mood := none, tags := none } 0 none rfl
  · exact claim_C6_amended.2.2.1 [] 1 7 sampleInput 1000 none (by decide) (by decide)
      (by decide)
  · exact claim_C6_amended.2.2.2 [builtEntry 1 7 sampleInput 1000 none] 2 7 sampleInput
      2000 none (by decide) (by decide) (by decide)

/-! ## Consistency-rate lemmas -/

/-- When the first entry is less than one full day old (or there is none),
the code returns a consistency rate of 0, bypassing the formula. -/
theorem consistencyRate_dsf_nonpos (store : Store) (uid : UserId) (now : Millis)
    (h : ¬0 < daysSinceFirstEntry store uid now) :
    consistencyRate store uid now = 0 := by
  unfold consistencyRate
  dsimp only
  rw [if_neg h]
  omega

/-- Counterexample for C7 as stated: an identity whose single entry was
created at the very instant `now` (so zero whole days since the first
entry) is given a consistency rate of 0 by the code, while the claimed
formula — total entries over days-since-first-entry plus one, as a
percentage capped at 100 — yields 100. -/
theorem claim_C7_counterexample :
    consistencyRate [sampleEntry] 1 1000 = 0
    ∧ specConsistencyRate [sampleEntry] 1 1000 = 100
    ∧ consistencyRate [sampleEntry] 1 1000 ≠ specConsistencyRate [sampleEntry] 1 1000 := by
  have hd : daysSinceFirstEntry [sampleEntry] 1 1000 = 0 := by decide
  have hl : userEntries [sampleEntry] 1 = [sampleEntry] := by decide
  have hrate : consistencyRate [sampleEntry] 1 1000 = 0 :=
    consistencyRate_dsf_nonpos [sampleEntry] 1 1000 (by rw [hd]; omega)
  have hspec : specConsistencyRate [sampleEntry] 1 1000 = 100 := by
    unfold specConsistencyRate
    rw [hl, hd]
    norm_num [jsRound]
  exact ⟨hrate, hspec, by rw [hrate, hspec]; omega⟩

/-- C7 (amended): the consistency rate never exceeds 100; when at least
one full day has passed since the first entry it equals the spec's formula
(total entries over days-since-first-entry plus one, as a rounded
percentage capped at 100); but when the first entry is younger than one
full day — in particular for an identity whose first and only entry was
made today — the code returns 0, not the formula's value. -/
theorem claim_C7_amended (store : Store) (uid : UserId) (now : Millis) :
    consistencyRate store uid now ≤ 100
    ∧ (0 < daysSinceFirstEntry store uid now →
        consistencyRate store uid now = specConsistencyRate store uid now)
    ∧ (¬0 < daysSinceFirstEntry store uid now → consistencyRate store uid now = 0) := by
  refine ⟨?_, ?_, consistencyRate_dsf_nonpos store uid now⟩
  · unfold consistencyRate
    exact min_le_left 100 _
  · intro h
    unfold consistencyRate specConsistencyRate
    dsimp only
    rw [if_pos h]

/-- Witness for C7 (amended): with the first entry two full days old the
code agrees with the formula, and with a brand-new first entry it returns
0. -/
theorem claim_C7_amended_witness :
    consistencyRate [sampleEntry] 1 (1000 + 2 * 86400000)
        = specConsistencyRate [sampleEntry] 1 (1000 + 2 * 86400000)
    ∧ consistencyRate [sampleEntry] 1 1000 = 0 := by
  constructor
  · exact (claim_C7_amended [sampleEntry] 1 (1000 + 2 * 86400000)).2.1 (by decide)
  · exact (claim_C7_amended [sampleEntry] 1 1000).2.2 (by decide)

/-! ## Word-count lemmas -/

/-- The word-counting walk agrees with splitting at whitespace and
counting the nonempty segments; in `inWord` mode the first segment belongs
to a word already counted, so only the segments after it are counted. -/
theorem countWordsAux_splitOnP :
    ∀ (l : List Char) (b : Bool),
      countWordsAux l b
        = ((if b then (l.splitOnP (fun c => c.isWhitespace)).tail
            else l.splitOnP (fun c => c.isWhitespace)).filter (fun s => !s.isEmpty)).length := by
  intro l
  induction l with
  | nil =>
    intro b
    cases b <;> simp [countWordsAux, List.splitOnP_nil]
  | cons c cs ih =>
    intro b
    by_cases hc : c.isWhitespace = true
    · have hsplit : (c :: cs).splitOnP (fun x => x.isWhitespace)
          = [] :: cs.splitOnP (fun x => x.isWhitespace) := by
        rw [List.splitOnP_cons]
        simp [hc]
      cases b <;> simp [countWordsAux, hc, hsplit, ih]
    · have hsplit : (c :: cs).splitOnP (fun x => x.isWhitespace)
          = (cs.splitOnP (fun x => x.isWhitespace)).modifyHead (List.cons c) := by
        rw [List.splitOnP_cons]
        simp [hc]
      obtain ⟨s, rest, hsr⟩ : ∃ s rest, cs.splitOnP (fun x => x.isWhitespace) = s :: rest := by
        cases hx : cs.splitOnP (fun x => x.isWhitespace) with
        | nil => exact absurd hx (List.splitOnP_ne_nil _ cs)
        | cons s rest => exact ⟨s, rest, rfl⟩
      have ihtrue := ih true
      rw [hsr] at ihtrue
      cases b
      · simp only [countWordsAux, hc, if_false, Bool.false_eq_true]
        rw [hsplit, hsr]
        simp only [List.modifyHead, List.filter, List.isEmpty_cons, Bool.not_true,
          Bool.not_false, List.length_cons]
        simp at ihtrue
        omega
      · simp only [countWordsAux, hc, Bool.false_eq_true, if_false]
        rw [hsplit, hsr]
        simp only [List.modifyHead, List.tail_cons]
        simp at ihtrue
        simpa using ihtrue

/-- The source's word count — zero for blank content, else the count of
maximal non-whitespace runs of the trimmed content — equals the
specification's description: the number of nonempty whitespace-separated
tokens of the trimmed content. -/
theorem jsWordCount_eq_spec (content : String) : jsWordCount content = specWordCount content := by
  unfold jsWordCount specWordCount
  have hto : (jsTrim content).toList = trimChars content.toList := rfl
  rw [hto]
  cases hx : trimChars content.toList with
  | nil => simp [List.splitOnP_nil]
  | cons a l =>
    have := countWordsAux_splitOnP (a :: l) false
    simpa [countWords] using this

/-- C10: whenever content is set, the pre-save middleware recomputes the
derived counts before the document is persisted: the stored
`characterCount` equals the length of the stored content, and the stored
`wordCount` equals the number of whitespace-separated tokens of the
trimmed content (0 when the trimmed content is empty); in particular every
entry persisted by `createEntry` carries these derived counts. -/
theorem claim_C10 (e : Entry) (dateTouched : Bool) :
    ((preSave e true dateTouched).content = e.content
     ∧ (preSave e true dateTouched).characterCount = e.content.length
     ∧ (preSave e true dateTouched).wordCount = specWordCount e.content)
    ∧ (∀ (store : Store) (newId : Nat) (uid : UserId) (r : EntryInput) (now : Millis)
        (tz : Option String) (e₂ : Entry),
        (createEntry store newId uid r now tz).1 = Except.ok e₂ →
        e₂.characterCount = e₂.content.length ∧ e₂.wordCount = specWordCount e₂.content) := by
  constructor
  · cases dateTouched <;> simp [preSave, jsWordCount_eq_spec]
  · intro store newId uid r now tz e₂ hok
    rcases createEntry_cases store newId uid r now tz with ⟨err, hcase⟩ | ⟨hcase, hany⟩
    · rw [hcase] at hok
      simp at hok
    · rw [hcase] at hok
      have he : e₂ = builtEntry newId uid r now tz := by simpa using hok.symm
      subst he
      constructor
      · rw [builtEntry_characterCount, builtEntry_content]
      · rw [builtEntry_wordCount, builtEntry_content, jsWordCount_eq_spec]

/-- Witness for C10: the entry persisted for the sample request carries
the recomputed counts. -/
theorem claim_C10_witness :
    (builtEntry 1 7 sampleInput 1000 none).characterCount
        = (builtEntry 1 7 sampleInput 1000 none).content.length
    ∧ (builtEntry 1 7 sampleInput 1000 none).wordCount
        = specWordCount (builtEntry 1 7 sampleInput 1000 none).content := by
  exact (claim_C10 sampleEntry true).2 [] 1 7 sampleInput 1000 none
    (builtEntry 1 7 sampleInput 1000 none)
    (by rw [createEntry_accepts [] 1 7 sampleInput 1000 none (by decide) (by decide) (by decide)])

end SnapNote
